import Mathlib

/-!
# Sparse covariance estimation — verification of the estimation pipeline

Shallow embedding of the sparse inverse-covariance estimation example
(`examples/notebooks/WWW/sparse_covariance_est.ipynb`): the convex-program
builder (variable, objective, constraint), the per-budget solve loop with its
status check, the unguarded matrix inversion, the thresholding post-processing
step, and the accumulation of results across the sweep of sparsity budgets.

Matrix entries are modelled as rationals. The external solver is a parameter:
a black box mapping the built program to a status and a matrix value, exactly
the collaborator contract of the design. The objective and constraint handed
to the solver are embedded as expression trees mirroring the cvxpy expressions
built in the source, together with an evaluation semantics; the log-det atom
is interpreted by an arbitrary function `L` into an arbitrary field containing
the rationals, so every theorem about the objective holds in particular for
the real field with `L` the actual log-determinant.
-/

namespace SparseCov

/-- Square rational matrices, the model of the numeric n×n arrays. -/
abbrev Mat (n : ℕ) := Matrix (Fin n) (Fin n) ℚ

/-- The fixed tolerance `1e-4` of the thresholding step. -/
def tol : ℚ := 1 / 10000

/-- Embedding of `S[abs(S) <= 1e-4] = 0`: every entry of magnitude at most
`tol` is forced to exactly zero, every other entry is kept unchanged. -/
def threshold {n : ℕ} (M : Mat n) : Mat n :=
  Matrix.of fun i j => if |M i j| ≤ tol then 0 else M i j

/-- Matrix-valued cvxpy subexpressions occurring in the notebook: the variable
`S`, a constant matrix (the sample covariance `Y`), and a matrix product
(`S*Y`). -/
inductive MExpr (n : ℕ) where
  | varS : MExpr n
  | constM (M : Mat n) : MExpr n
  | mmul (a b : MExpr n) : MExpr n

/-- Value of a matrix expression once the variable is assigned the matrix
`S`. -/
def MExpr.eval {n : ℕ} (S : Mat n) : MExpr n → Mat n
  | MExpr.varS => S
  | MExpr.constM M => M
  | MExpr.mmul a b => MExpr.eval S a * MExpr.eval S b

/-- Scalar-valued cvxpy subexpressions occurring in the notebook: rational
literals, `cvx.log_det` of a matrix expression, a single entry `e[i, j]`,
`cvx.sum(cvx.abs(e))` (the entrywise L1 norm), and addition/subtraction. -/
inductive SExpr (n : ℕ) where
  | lit (q : ℚ) : SExpr n
  | logDet (e : MExpr n) : SExpr n
  | entry (e : MExpr n) (i j : Fin n) : SExpr n
  | sumAbsEntries (e : MExpr n) : SExpr n
  | add (a b : SExpr n) : SExpr n
  | sub (a b : SExpr n) : SExpr n

/-- Value of a scalar expression in a field `K` ⊇ ℚ, given an interpretation
`L` of the log-det atom and an assignment `S` of the variable. Every atom
except `logDet` is rational-valued; taking `K := ℝ` and `L` the genuine
log-determinant recovers the numeric objective of the source. -/
def SExpr.eval {n : ℕ} {K : Type} [Field K] (L : Mat n → K) (S : Mat n) :
    SExpr n → K
  | SExpr.lit q => (q : K)
  | SExpr.logDet e => L (MExpr.eval S e)
  | SExpr.entry e i j => ((MExpr.eval S e i j : ℚ) : K)
  | SExpr.sumAbsEntries e => ((∑ i, ∑ j, |MExpr.eval S e i j| : ℚ) : K)
  | SExpr.add a b => SExpr.eval L S a + SExpr.eval L S b
  | SExpr.sub a b => SExpr.eval L S a - SExpr.eval L S b

/-- A cvxpy inequality constraint `lhs <= rhs` with a scalar bound, the only
constraint form the notebook builds. -/
inductive ConstraintE (n : ℕ) where
  | le (lhs : SExpr n) (rhs : ℚ) : ConstraintE n

/-- Satisfaction of a constraint by an assignment of the variable. The
constraints built by the source contain no log-det atom, so the scalar side
is evaluated in ℚ with the log-det interpretation fixed to zero. -/
def ConstraintE.holds {n : ℕ} (S : Mat n) : ConstraintE n → Prop
  | ConstraintE.le lhs rhs => SExpr.eval (K := ℚ) (fun _ => 0) S lhs ≤ rhs

/-- Optimization sense of a cvxpy problem. -/
inductive Sense where
  | maximize : Sense
  | minimize : Sense
deriving DecidableEq

/-- A convex program description as assembled by the source: the declared
shape and PSD flag of the variable, the sense, the objective expression and
the list of constraints. -/
structure Program (n : ℕ) where
  varRows : ℕ
  varCols : ℕ
  varPSD : Bool
  sense : Sense
  objective : SExpr n
  constraints : List (ConstraintE n)

/-- Membership in the positive-semidefinite cone of symmetric rational
matrices, stated via the quadratic form. -/
def psdMember {n : ℕ} (S : Mat n) : Prop :=
  S.IsSymm ∧ ∀ x : Fin n → ℚ, 0 ≤ ∑ i, ∑ j, x i * S i j * x j

/-- Domain constraint placed on the variable by its declaration: a variable
declared with `PSD=True` ranges over the positive-semidefinite cone (cvxpy
PSD variables are symmetric), an undeclared variable is unrestricted. -/
def Program.varFeasible {n : ℕ} (p : Program n) (S : Mat n) : Prop :=
  p.varPSD = true → psdMember S

/-- The diagonal entries `(S*Y)[i, i] for i in range(n)` of the list
comprehension forming the trace term of the objective. -/
def diagProductTerms {n : ℕ} (Y : Mat n) : List (SExpr n) :=
  (List.finRange n).map fun i =>
    SExpr.entry (MExpr.mmul MExpr.varS (MExpr.constM Y)) i i

/-- The python builtin `sum` on a list of cvxpy expressions: a left fold of
`+` starting from the integer literal `0`. -/
def pySum {n : ℕ} (l : List (SExpr n)) : SExpr n :=
  l.foldl SExpr.add (SExpr.lit 0)

/-- ProblemBuilder: the convex program constructed in the body of the
per-alpha loop — an n×n variable declared `PSD=True`, the objective
`Maximize(log_det(S) - sum([(S*Y)[i, i] for i in range(n)]))`, and the single
constraint `sum(abs(S)) <= alpha`. -/
def buildProblem {n : ℕ} (Y : Mat n) (α : ℚ) : Program n :=
  { varRows := n
    varCols := n
    varPSD := true
    sense := Sense.maximize
    objective := SExpr.sub (SExpr.logDet MExpr.varS) (pySum (diagProductTerms Y))
    constraints := [ConstraintE.le (SExpr.sumAbsEntries MExpr.varS) α] }

/-- Terminal statuses of the external solver, per the collaborator
contract. -/
inductive SolverStatus where
  | optimal : SolverStatus
  | infeasible : SolverStatus
  | unbounded : SolverStatus
  | error : SolverStatus
deriving DecidableEq

/-- What a solve returns: a terminal status together with the matrix value of
the variable (`S.value`). -/
structure RawSolution (n : ℕ) where
  status : SolverStatus
  value : Mat n

/-- The external solver collaborator: a black box from the assembled program
to a raw solution. -/
abbrev Solver (n : ℕ) := Program n → RawSolution n

/-- Model of `np.linalg.inv`: defined (as the usual inverse) exactly on
nonsingular matrices, and a failure (`none`, numpy raises `LinAlgError`) on
singular ones. -/
def npLinalgInv {n : ℕ} (M : Mat n) : Option (Mat n) :=
  if M.det = 0 then none else some (M.det⁻¹ • M.adjugate)

/-- One iteration of the per-alpha loop: build the problem, solve it, raise
the fixed exception whose message is the string CVXPY Error when the status
is not optimal, compute `R_hat = np.linalg.inv(S.value)` (unused afterwards),
then threshold the raw value. -/
def runBody {n : ℕ} (Y : Mat n) (solver : Solver n) (α : ℚ) :
    Except String (Mat n) :=
  let sol := solver (buildProblem Y α)
  if sol.status = SolverStatus.optimal then
    match npLinalgInv sol.value with
    | some _rhat => Except.ok (threshold sol.value)
    | none => Except.error "LinAlgError: Singular matrix"
  else
    Except.error "CVXPY Error"

/-- EstimationPipeline: the `for alpha in alphas` loop, accumulating one
thresholded estimate per budget in budget order (`Ss += [S]`); a raised
exception aborts the sweep, so no collection is produced on failure. -/
def runPipeline {n : ℕ} (Y : Mat n) (solver : Solver n) :
    List ℚ → Except String (List (Mat n))
  | [] => Except.ok []
  | α :: rest =>
    match runBody Y solver α with
    | Except.ok S => Except.map (fun Ss => S :: Ss) (runPipeline Y solver rest)
    | Except.error e => Except.error e

/-- Number of exactly-zero entries of a matrix. -/
def zeroCount {n : ℕ} (M : Mat n) : ℕ :=
  (Finset.univ.filter fun p : Fin n × Fin n => M p.1 p.2 = 0).card

/-- Number of entries of magnitude at most the thresholding tolerance. -/
def smallCount {n : ℕ} (M : Mat n) : ℕ :=
  (Finset.univ.filter fun p : Fin n × Fin n => |M p.1 p.2| ≤ tol).card

/-- The scalar bound of the first inequality constraint of a program; test
solvers below use it to recognise which budget they are being invoked on,
exactly as a real solver reads the bound out of the handed problem. -/
def Program.firstBound {n : ℕ} (p : Program n) : ℚ :=
  match p.constraints with
  | [] => 0
  | ConstraintE.le _ b :: _ => b

/-- The constant-zero interpretation of the log-det atom, used to instantiate
evaluation statements at concrete inputs. -/
def logDetZero {n : ℕ} : Mat n → ℚ := fun _ => 0

/-- A 1×1 matrix whose sole entry is below the thresholding tolerance. -/
def tinyM : Mat 1 := Matrix.of ![![(1 : ℚ)/100000]]

/-- A concrete symmetric invertible 2×2 matrix with entries above the
tolerance. -/
def symM : Mat 2 := Matrix.of ![![(2 : ℚ), 3], ![3, 5]]

/-- A test solver that always reports optimality and returns the identity. -/
def solverOpt1 : Solver 1 := fun _ => ⟨SolverStatus.optimal, 1⟩

/-- A test solver that always reports infeasibility. -/
def solverInfeas : Solver 1 := fun _ => ⟨SolverStatus.infeasible, 1⟩

/-- A test solver that always reports unboundedness. -/
def solverUnbnd : Solver 1 := fun _ => ⟨SolverStatus.unbounded, 1⟩

/-- A test solver reporting optimality everywhere, whose solution for budget 2
is entrywise tiny (thresholded to zero) and whose solution for any other
budget is the identity (no zero after thresholding). -/
def solverSmall2 : Solver 1 := fun p =>
  if p.firstBound = 2 then ⟨SolverStatus.optimal, tinyM⟩
  else ⟨SolverStatus.optimal, 1⟩

/-- A test solver reporting optimality everywhere, returning a singular
matrix for budget 10 and the identity otherwise. -/
def solverSing10 : Solver 1 := fun p =>
  if p.firstBound = 10 then ⟨SolverStatus.optimal, 0⟩
  else ⟨SolverStatus.optimal, 1⟩

/-- A test solver that always reports optimality and returns the symmetric
matrix `symM`. -/
def solverSym : Solver 2 := fun _ => ⟨SolverStatus.optimal, symM⟩

/-! ## Helper lemmas -/

lemma eval_foldl_add {n : ℕ} {K : Type} [Field K] (L : Mat n → K) (S : Mat n)
    (l : List (SExpr n)) (acc : SExpr n) :
    SExpr.eval L S (l.foldl SExpr.add acc) =
      SExpr.eval L S acc + (l.map (SExpr.eval L S)).sum := by
  induction l generalizing acc with
  | nil => simp
  | cons a t ih =>
    simp only [List.foldl_cons, List.map_cons, List.sum_cons, ih, SExpr.eval]
    ring

lemma eval_pySum {n : ℕ} {K : Type} [Field K] (L : Mat n → K) (S : Mat n)
    (l : List (SExpr n)) :
    SExpr.eval L S (pySum l) = (l.map (SExpr.eval L S)).sum := by
  simp [pySum, eval_foldl_add, SExpr.eval]

/-- The sum of the diagonal comprehension evaluates to the trace of `S*Y`. -/
lemma eval_traceTerm {n : ℕ} {K : Type} [Field K] [CharZero K] (L : Mat n → K)
    (Y S : Mat n) :
    SExpr.eval L S (pySum (diagProductTerms Y)) =
      ((Matrix.trace (S * Y) : ℚ) : K) := by
  rw [eval_pySum, diagProductTerms, List.map_map]
  have h1 : ((Matrix.trace (S * Y) : ℚ) : K) = ∑ i, (((S * Y) i i : ℚ) : K) := by
    rw [Matrix.trace, Rat.cast_sum]
    rfl
  rw [h1, Fin.sum_univ_def]
  rfl

lemma trace_eq_double_sum {n : ℕ} (S Y : Mat n) :
    Matrix.trace (S * Y) = ∑ i, ∑ j, S i j * Y j i := by
  simp [Matrix.trace, Matrix.diag, Matrix.mul_apply]

lemma tol_pos : 0 < tol := by norm_num [tol]

lemma runBody_of_optimal {n : ℕ} (Y : Mat n) (solver : Solver n) (α : ℚ)
    (hstat : (solver (buildProblem Y α)).status = SolverStatus.optimal)
    (hdet : (solver (buildProblem Y α)).value.det ≠ 0) :
    runBody Y solver α
      = Except.ok (threshold ((solver (buildProblem Y α)).value)) := by
  simp [runBody, hstat, npLinalgInv, hdet]

lemma runBody_of_failed {n : ℕ} (Y : Mat n) (solver : Solver n) (α : ℚ)
    (hstat : (solver (buildProblem Y α)).status ≠ SolverStatus.optimal) :
    runBody Y solver α = Except.error "CVXPY Error" := by
  simp [runBody, hstat]

lemma runBody_of_singular {n : ℕ} (Y : Mat n) (solver : Solver n) (α : ℚ)
    (hstat : (solver (buildProblem Y α)).status = SolverStatus.optimal)
    (hdet : (solver (buildProblem Y α)).value.det = 0) :
    runBody Y solver α = Except.error "LinAlgError: Singular matrix" := by
  simp [runBody, hstat, npLinalgInv, hdet]

lemma runBody_ok_iff {n : ℕ} {Y : Mat n} {solver : Solver n} {α : ℚ}
    {S : Mat n} :
    runBody Y solver α = Except.ok S ↔
      ((solver (buildProblem Y α)).status = SolverStatus.optimal ∧
        (solver (buildProblem Y α)).value.det ≠ 0 ∧
        S = threshold ((solver (buildProblem Y α)).value)) := by
  by_cases h1 : (solver (buildProblem Y α)).status = SolverStatus.optimal
  · by_cases h2 : (solver (buildProblem Y α)).value.det = 0
    · simp [runBody, npLinalgInv, h1, h2]
    · simp [runBody, npLinalgInv, h1, h2, eq_comm]
  · simp [runBody, h1]

lemma runPipeline_cons {n : ℕ} (Y : Mat n) (solver : Solver n) (α : ℚ)
    (rest : List ℚ) :
    runPipeline Y solver (α :: rest)
      = match runBody Y solver α with
        | Except.ok S => Except.map (fun Ss => S :: Ss) (runPipeline Y solver rest)
        | Except.error e => Except.error e := rfl

lemma runPipeline_cons_ok {n : ℕ} (Y : Mat n) (solver : Solver n) (α : ℚ)
    (rest : List ℚ) {S : Mat n} (h : runBody Y solver α = Except.ok S) :
    runPipeline Y solver (α :: rest)
      = Except.map (fun Ss => S :: Ss) (runPipeline Y solver rest) := by
  rw [runPipeline_cons, h]

lemma runPipeline_cons_err {n : ℕ} (Y : Mat n) (solver : Solver n) (α : ℚ)
    (rest : List ℚ) {e : String} (h : runBody Y solver α = Except.error e) :
    runPipeline Y solver (α :: rest) = Except.error e := by
  rw [runPipeline_cons, h]

lemma runPipeline_all_ok {n : ℕ} (Y : Mat n) (solver : Solver n)
    (alphas : List ℚ)
    (h : ∀ α ∈ alphas,
      (solver (buildProblem Y α)).status = SolverStatus.optimal ∧
      (solver (buildProblem Y α)).value.det ≠ 0) :
    runPipeline Y solver alphas
      = Except.ok (alphas.map fun α => threshold ((solver (buildProblem Y α)).value)) := by
  induction alphas with
  | nil => rfl
  | cons α rest ih =>
    have hα := h α (List.mem_cons_self α rest)
    rw [runPipeline_cons_ok Y solver α rest (runBody_of_optimal Y solver α hα.1 hα.2),
      ih fun β hβ => h β (List.mem_cons_of_mem α hβ)]
    rfl

lemma runPipeline_ok_forall {n : ℕ} {Y : Mat n} {solver : Solver n}
    {alphas : List ℚ} {res : List (Mat n)}
    (h : runPipeline Y solver alphas = Except.ok res) :
    ∀ α ∈ alphas,
      (solver (buildProblem Y α)).status = SolverStatus.optimal ∧
      (solver (buildProblem Y α)).value.det ≠ 0 := by
  induction alphas generalizing res with
  | nil => simp
  | cons α rest ih =>
    intro β hβ
    rw [runPipeline_cons] at h
    cases hb : runBody Y solver α with
    | error e => rw [hb] at h; exact absurd h (by simp)
    | ok S =>
      rw [hb] at h
      cases hr : runPipeline Y solver rest with
      | error e => rw [hr] at h; exact absurd h (by simp [Except.map])
      | ok tail =>
        rcases List.mem_cons.mp hβ with hfst | hmem
        · subst hfst
          exact ⟨(runBody_ok_iff.mp hb).1, (runBody_ok_iff.mp hb).2.1⟩
        · exact ih hr β hmem

lemma runPipeline_ok_elim {n : ℕ} {Y : Mat n} {solver : Solver n}
    {alphas : List ℚ} {res : List (Mat n)}
    (h : runPipeline Y solver alphas = Except.ok res) :
    res = alphas.map fun α => threshold ((solver (buildProblem Y α)).value) := by
  have h2 := runPipeline_all_ok Y solver alphas (runPipeline_ok_forall h)
  rw [h2] at h
  exact (Except.ok.inj h).symm

lemma tinyM_entry_small : |tinyM 0 0| ≤ tol := by
  have h : tinyM 0 0 = 1 / 100000 := by norm_num [tinyM]
  rw [h, abs_of_pos (by norm_num)]
  norm_num [tol]

lemma threshold_apply_small {n : ℕ} {M : Mat n} {i j : Fin n}
    (h : |M i j| ≤ tol) : threshold M i j = 0 := by
  simp [threshold, h]

lemma threshold_apply_large {n : ℕ} {M : Mat n} {i j : Fin n}
    (h : tol < |M i j|) : threshold M i j = M i j := by
  simp [threshold, not_le.mpr h]

lemma threshold_isSymm {n : ℕ} {M : Mat n} (h : M.IsSymm) :
    (threshold M).IsSymm := by
  show Matrix.transpose (threshold M) = threshold M
  ext i j
  have hij : M i j = M j i := congrFun (congrFun h j) i
  show threshold M j i = threshold M i j
  simp only [threshold, Matrix.of_apply]
  rw [← hij]

lemma zeroCount_threshold {n : ℕ} (M : Mat n) :
    zeroCount (threshold M) = smallCount M := by
  unfold zeroCount smallCount
  congr 1
  apply Finset.filter_congr
  intro p _
  constructor
  · intro h0
    by_contra hc
    have hL := threshold_apply_large (not_le.mp hc)
    rw [hL] at h0
    rw [h0] at hc
    exact hc (by simpa using le_of_lt tol_pos)
  · intro h
    exact threshold_apply_small h

lemma solverOpt1_succ (p : Program 1) :
    (solverOpt1 p).status = SolverStatus.optimal ∧
    (solverOpt1 p).value.det ≠ 0 :=
  ⟨rfl, by simp [solverOpt1]⟩

lemma neg_one_nonpos : (-1 : ℚ) ≤ 0 := by norm_num

lemma two_lt_three_q : (2 : ℚ) < 3 := by norm_num

lemma symM_isSymm : symM.IsSymm := by
  show Matrix.transpose symM = symM
  ext i j
  fin_cases i <;> fin_cases j <;> rfl

lemma symM_det_ne : symM.det ≠ 0 := by
  rw [Matrix.det_fin_two]
  norm_num [symM]

lemma solverSym_succ (p : Program 2) :
    (solverSym p).status = SolverStatus.optimal ∧
    (solverSym p).value.det ≠ 0 :=
  ⟨rfl, symM_det_ne⟩

lemma tinyM_det_ne : tinyM.det ≠ 0 := by
  rw [Matrix.det_fin_one]
  norm_num [tinyM]

lemma tinyM_entry_ne : tinyM 0 0 ≠ 0 := by
  norm_num [tinyM]

lemma smallCount_one1 : smallCount (1 : Mat 1) = 0 := by
  unfold smallCount
  rw [Finset.card_eq_zero, Finset.filter_eq_empty_iff]
  intro p _
  have h1 : p.1 = 0 := Subsingleton.elim _ _
  have h2 : p.2 = 0 := Subsingleton.elim _ _
  rw [h1, h2, Matrix.one_apply_eq]
  norm_num [tol]

lemma smallCount_tinyM : smallCount tinyM = 1 := by
  unfold smallCount
  rw [Finset.filter_true_of_mem, Finset.card_univ]
  · simp
  · intro p _
    have h1 : p.1 = 0 := Subsingleton.elim _ _
    have h2 : p.2 = 0 := Subsingleton.elim _ _
    rw [h1, h2]
    exact tinyM_entry_small

lemma solverSmall2_at_two :
    solverSmall2 (buildProblem (1 : Mat 1) 2)
      = ⟨SolverStatus.optimal, tinyM⟩ := by
  norm_num [solverSmall2, Program.firstBound, buildProblem]

lemma solverSmall2_at_three :
    solverSmall2 (buildProblem (1 : Mat 1) 3)
      = ⟨SolverStatus.optimal, (1 : Mat 1)⟩ := by
  norm_num [solverSmall2, Program.firstBound, buildProblem]

lemma solverSmall2_at_one :
    solverSmall2 (buildProblem (1 : Mat 1) 1)
      = ⟨SolverStatus.optimal, (1 : Mat 1)⟩ := by
  norm_num [solverSmall2, Program.firstBound, buildProblem]

lemma small2_mono_at_concrete :
    smallCount ((solverSmall2 (buildProblem (1 : Mat 1) 3)).value)
      ≤ smallCount ((solverSmall2 (buildProblem (1 : Mat 1) 2)).value) := by
  rw [solverSmall2_at_three, solverSmall2_at_two]
  rw [show ((⟨SolverStatus.optimal, (1 : Mat 1)⟩ : RawSolution 1)).value = (1 : Mat 1) from rfl,
    show ((⟨SolverStatus.optimal, tinyM⟩ : RawSolution 1)).value = tinyM from rfl,
    smallCount_one1, smallCount_tinyM]
  exact Nat.zero_le 1

lemma runBody_small2_at2 :
    runBody (1 : Mat 1) solverSmall2 2 = Except.ok (threshold tinyM) := by
  simp only [runBody]
  rw [solverSmall2_at_two]
  simp [npLinalgInv, Matrix.det_fin_one, tinyM_entry_ne]

lemma runBody_small2_at1 :
    runBody (1 : Mat 1) solverSmall2 1 = Except.ok (threshold (1 : Mat 1)) := by
  simp only [runBody]
  rw [solverSmall2_at_one]
  simp [npLinalgInv]

lemma solverSing10_at_ten :
    solverSing10 (buildProblem (1 : Mat 1) 10)
      = ⟨SolverStatus.optimal, 0⟩ := by
  norm_num [solverSing10, Program.firstBound, buildProblem]

lemma solverSing10_at_two :
    solverSing10 (buildProblem (1 : Mat 1) 2)
      = ⟨SolverStatus.optimal, (1 : Mat 1)⟩ := by
  norm_num [solverSing10, Program.firstBound, buildProblem]

lemma sing10_status_ten :
    (solverSing10 (buildProblem (1 : Mat 1) 10)).status = SolverStatus.optimal := by
  rw [solverSing10_at_ten]

lemma sing10_det_ten :
    (solverSing10 (buildProblem (1 : Mat 1) 10)).value.det = 0 := by
  rw [solverSing10_at_ten]
  simp [Matrix.det_fin_one]

lemma sing10_status_two :
    (solverSing10 (buildProblem (1 : Mat 1) 2)).status = SolverStatus.optimal := by
  rw [solverSing10_at_two]

lemma sing10_det_two :
    (solverSing10 (buildProblem (1 : Mat 1) 2)).value.det ≠ 0 := by
  rw [solverSing10_at_two]
  simp

lemma runPipeline_solverSym_eval :
    runPipeline (1 : Mat 2) solverSym [10] = Except.ok [threshold symM] :=
  runPipeline_all_ok (1 : Mat 2) solverSym [10] fun _ _ => solverSym_succ _

lemma one_entry_large : tol < |(1 : Mat 1) 0 0| := by
  norm_num [Matrix.one_apply, tol]

/-! ## Claims -/

/-- C1: for every sample covariance `Y` (n×n) and sparsity budget `α`, the
constructed convex program has as its variable a symmetric n×n matrix
constrained to the positive-semidefinite cone, maximizes
`log det S − tr(S·Y)`, and has the single constraint that the sum over all
`i, j` of `|S i j|` is at most `α`. -/
theorem builtProgram_matches_spec {n : ℕ} {K : Type} [Field K] [CharZero K]
    (Y : Mat n) (α : ℚ) (L : Mat n → K) (S : Mat n) :
    (buildProblem Y α).varRows = n ∧
    (buildProblem Y α).varCols = n ∧
    (buildProblem Y α).sense = Sense.maximize ∧
    ((buildProblem Y α).varFeasible S ↔ psdMember S) ∧
    SExpr.eval L S (buildProblem Y α).objective
      = L S - ((Matrix.trace (S * Y) : ℚ) : K) ∧
    (buildProblem Y α).constraints.length = 1 ∧
    ((∀ c ∈ (buildProblem Y α).constraints, ConstraintE.holds S c) ↔
      (∑ i, ∑ j, |S i j|) ≤ α) := by
  refine ⟨rfl, rfl, rfl, ⟨fun h => h rfl, fun h _ => h⟩, ?_, rfl, ?_⟩
  · simp [buildProblem, SExpr.eval, MExpr.eval, eval_traceTerm]
  · simp [buildProblem, ConstraintE.holds, SExpr.eval, MExpr.eval]

/-- C9: the implemented trace term of the objective — the sum of the diagonal
entries of `S*Y` — equals `tr(S·Y)` (the double sum `∑ i ∑ j S i j * Y j i`)
for every pair of n×n matrices, so the implemented objective coincides with
`log det S − tr(S·Y)`. -/
theorem traceTerm_is_trace {n : ℕ} {K : Type} [Field K] [CharZero K]
    (L : Mat n → K) (S Y : Mat n) (α : ℚ) :
    SExpr.eval L S (pySum (diagProductTerms Y))
      = ((Matrix.trace (S * Y) : ℚ) : K) ∧
    Matrix.trace (S * Y) = ∑ i, ∑ j, S i j * Y j i ∧
    SExpr.eval L S (buildProblem Y α).objective
      = L S - ((Matrix.trace (S * Y) : ℚ) : K) :=
  ⟨eval_traceTerm L Y S, trace_eq_double_sum S Y, by
    simp [buildProblem, SExpr.eval, MExpr.eval, eval_traceTerm]⟩

/-- C2: the thresholding step maps each entry with magnitude at most `1e-4`
to exactly 0 and leaves every entry with magnitude above `1e-4` unchanged
from the value returned by the solver. -/
theorem threshold_entry_spec {n : ℕ} (M : Mat n) (i j : Fin n) :
    (|M i j| ≤ tol → threshold M i j = 0) ∧
    (tol < |M i j| → threshold M i j = M i j) := by
  constructor
  · intro h
    simp [threshold, h]
  · intro h
    simp [threshold, not_le.mpr h]

/-- Witness for C2 at concrete entries: an entry below the tolerance becomes
exactly zero, an entry above it is unchanged. -/
theorem threshold_entry_spec_witness :
    threshold tinyM 0 0 = 0 ∧ threshold (1 : Mat 1) 0 0 = (1 : Mat 1) 0 0 :=
  ⟨(threshold_entry_spec tinyM 0 0).1 tinyM_entry_small,
   (threshold_entry_spec (1 : Mat 1) 0 0).2 one_entry_large⟩

/-- C5: thresholding is idempotent — applying it twice yields the same matrix
as applying it once. -/
theorem threshold_idempotent {n : ℕ} (M : Mat n) :
    threshold (threshold M) = threshold M := by
  ext i j
  by_cases h : |M i j| ≤ tol
  · simp [threshold, h]
  · simp [threshold, h]

/-- Witness for C1 at a concrete program: the built program maximizes and
carries exactly one constraint. -/
theorem builtProgram_matches_spec_witness :
    (buildProblem (1 : Mat 1) 5).sense = Sense.maximize ∧
    (buildProblem (1 : Mat 1) 5).constraints.length = 1 :=
  ⟨(builtProgram_matches_spec (K := ℚ) (1 : Mat 1) 5 logDetZero 1).2.2.1,
   (builtProgram_matches_spec (K := ℚ) (1 : Mat 1) 5 logDetZero 1).2.2.2.2.2.1⟩

/-- Witness for C9 at a concrete input: the implemented trace term evaluates
to the trace. -/
theorem traceTerm_is_trace_witness :
    SExpr.eval logDetZero (1 : Mat 1) (pySum (diagProductTerms (1 : Mat 1)))
      = ((Matrix.trace ((1 : Mat 1) * (1 : Mat 1)) : ℚ) : ℚ) :=
  (traceTerm_is_trace (K := ℚ) logDetZero (1 : Mat 1) (1 : Mat 1) 5).1

/-- C3 (amended): at the first budget whose solve returns a non-optimal
status, the pipeline aborts — later budgets are never solved and do not
affect the outcome — but the signalled error is the fixed exception message
`CVXPY Error`, which carries neither the offending budget nor the solver
status. -/
theorem abort_on_first_failure {n : ℕ} (Y : Mat n) (solver : Solver n)
    (pre rest : List ℚ) (α : ℚ)
    (hpre : ∀ β ∈ pre,
      (solver (buildProblem Y β)).status = SolverStatus.optimal ∧
      (solver (buildProblem Y β)).value.det ≠ 0)
    (hfail : (solver (buildProblem Y α)).status ≠ SolverStatus.optimal) :
    runPipeline Y solver (pre ++ α :: rest) = Except.error "CVXPY Error" := by
  induction pre with
  | nil =>
    rw [List.nil_append]
    exact runPipeline_cons_err Y solver α rest (runBody_of_failed Y solver α hfail)
  | cons β pr ih =>
    have hβ := hpre β (List.mem_cons_self β pr)
    rw [List.cons_append,
      runPipeline_cons_ok Y solver β (pr ++ α :: rest)
        (runBody_of_optimal Y solver β hβ.1 hβ.2),
      ih fun γ hγ => hpre γ (List.mem_cons_of_mem β hγ)]
    rfl

/-- Counterexample to C3 as stated: two sweeps failing at different budgets
(10 versus 2) and with different non-optimal statuses (infeasible versus
unbounded) signal the very same error value, so the signalled error carries
neither the offending budget nor the solver status. -/
theorem pipeline_error_payload_fixed :
    runPipeline (1 : Mat 1) solverInfeas [10]
      = runPipeline (1 : Mat 1) solverUnbnd [2] ∧
    runPipeline (1 : Mat 1) solverInfeas [10]
      = Except.error "CVXPY Error" :=
  ⟨rfl, rfl⟩

/-- Witness for C3 (amended): a failure at the first budget aborts the sweep
over the remaining budgets with the fixed error message. -/
theorem abort_on_first_failure_witness :
    runPipeline (1 : Mat 1) solverInfeas [10, 2, 1]
      = Except.error "CVXPY Error" :=
  abort_on_first_failure (1 : Mat 1) solverInfeas [] [2, 1] 10
    (fun β hβ => absurd hβ (List.not_mem_nil β))
    (fun h => SolverStatus.noConfusion h)

/-- C4 (amended): the pipeline performs no input validation — a non-positive
budget is handed to the solver like any other, and the run then succeeds or
fails purely according to the status the solver returns (and the
invertibility of its solution); no `InvalidInput` rejection exists. -/
theorem no_budget_validation {n : ℕ} (Y : Mat n) (solver : Solver n) (α : ℚ)
    (hnp : α ≤ 0)
    (hopt : (solver (buildProblem Y α)).status = SolverStatus.optimal)
    (hdet : (solver (buildProblem Y α)).value.det ≠ 0) :
    runPipeline Y solver [α]
      = Except.ok [threshold ((solver (buildProblem Y α)).value)] := by
  have h := runPipeline_all_ok Y solver [α] (by
    intro β hβ
    rw [List.mem_singleton.mp hβ]
    exact ⟨hopt, hdet⟩)
  simpa using h

/-- Counterexample to C4 as stated: with budget −1 ≤ 0 the pipeline does not
reject the input — it invokes the solver, succeeds when the solver reports
optimality, and propagates the solver failure otherwise; no `InvalidInput`
error occurs before the solver runs. -/
theorem nonpositive_budget_reaches_solver :
    runPipeline (1 : Mat 1) solverOpt1 [-1]
      = Except.ok [threshold (1 : Mat 1)] ∧
    runPipeline (1 : Mat 1) solverInfeas [-1]
      = Except.error "CVXPY Error" := by
  constructor
  · exact runPipeline_all_ok (1 : Mat 1) solverOpt1 [-1] fun _ _ => solverOpt1_succ _
  · rfl

/-- Witness for C4 (amended): the concrete run with budget −1 reaches the
solver and completes normally. -/
theorem no_budget_validation_witness :
    runPipeline (1 : Mat 1) solverOpt1 [-1]
      = Except.ok [threshold ((solverOpt1 (buildProblem (1 : Mat 1) (-1))).value)] :=
  no_budget_validation (1 : Mat 1) solverOpt1 (-1) neg_one_nonpos
    (solverOpt1_succ _).1 (solverOpt1_succ _).2

/-- C6: every estimate of a successful sweep is exactly symmetric provided
the solver returns symmetric raw solutions (as the PSD variable declaration
demands), and in particular the elementwise threshold operation maps every
symmetric matrix to a symmetric matrix. -/
theorem estimates_symmetric {n : ℕ} (Y : Mat n) (solver : Solver n)
    (alphas : List ℚ) (res : List (Mat n)) (S M : Mat n)
    (hsym : ∀ p : Program n, ((solver p).value).IsSymm)
    (hok : runPipeline Y solver alphas = Except.ok res)
    (hS : S ∈ res) (hM : M.IsSymm) :
    S.IsSymm ∧ (threshold M).IsSymm := by
  constructor
  · have hres := runPipeline_ok_elim hok
    subst hres
    rcases List.mem_map.mp hS with ⟨α, hα, rfl⟩
    exact threshold_isSymm (hsym _)
  · exact threshold_isSymm hM

/-- Witness for C6: the single estimate of a concrete sweep with a symmetric
solver solution is symmetric. -/
theorem estimates_symmetric_witness :
    (threshold symM).IsSymm ∧ (threshold symM).IsSymm :=
  estimates_symmetric (1 : Mat 2) solverSym [10] [threshold symM]
    (threshold symM) symM (fun _ => symM_isSymm) runPipeline_solverSym_eval
    (List.mem_singleton.mpr rfl) symM_isSymm

/-- C7 (amended): the number of exact zeros of an estimate equals the number
of raw-solution entries of magnitude at most `1e-4`; consequently, for two
budgets α₂ < α₁, the estimate for the tighter budget has at least as many
zeros exactly when the raw solution returned for it has at least as many
small entries — a property of the external solver that the pipeline itself
does not enforce. -/
theorem zeroCount_tracks_small_raw_entries {n : ℕ} (Y : Mat n)
    (solver : Solver n) (α₁ α₂ : ℚ) (M : Mat n)
    (hbudget : α₂ < α₁)
    (hmono : smallCount ((solver (buildProblem Y α₁)).value)
      ≤ smallCount ((solver (buildProblem Y α₂)).value)) :
    zeroCount (threshold M) = smallCount M ∧
    zeroCount (threshold ((solver (buildProblem Y α₁)).value))
      ≤ zeroCount (threshold ((solver (buildProblem Y α₂)).value)) := by
  refine ⟨zeroCount_threshold M, ?_⟩
  rw [zeroCount_threshold, zeroCount_threshold]
  exact hmono

/-- Counterexample to C7 as stated: a sweep over budgets 2 and 1 with a
contract-conforming solver in which the estimate for the tighter budget 1 has
strictly fewer exact zeros than the estimate for budget 2. -/
theorem cex_sparsity_not_monotone :
    runPipeline (1 : Mat 1) solverSmall2 [2, 1]
      = Except.ok [threshold tinyM, threshold (1 : Mat 1)] ∧
    zeroCount (threshold (1 : Mat 1)) < zeroCount (threshold tinyM) := by
  constructor
  · rw [runPipeline_cons_ok (1 : Mat 1) solverSmall2 2 [1] runBody_small2_at2,
      runPipeline_cons_ok (1 : Mat 1) solverSmall2 1 [] runBody_small2_at1]
    rfl
  · rw [zeroCount_threshold, zeroCount_threshold, smallCount_one1, smallCount_tinyM]
    exact Nat.zero_lt_one

/-- Witness for C7 (amended) at concrete budgets 3 and 2. -/
theorem zeroCount_tracks_small_raw_entries_witness :
    zeroCount (threshold tinyM) = smallCount tinyM ∧
    zeroCount (threshold ((solverSmall2 (buildProblem (1 : Mat 1) 3)).value))
      ≤ zeroCount (threshold ((solverSmall2 (buildProblem (1 : Mat 1) 2)).value)) :=
  zeroCount_tracks_small_raw_entries (1 : Mat 1) solverSmall2 3 2 tinyM
    two_lt_three_q small2_mono_at_concrete

/-- C8: when every budget solves to optimality (with an invertible raw
solution, which the unguarded inversion additionally demands), the pipeline
returns exactly one estimate per input budget, in input order, the k-th
estimate originating from the k-th budget; and an `ok` collection exists only
when every budget succeeded — no partial collection is ever produced. -/
theorem pipeline_collects_in_order {n : ℕ} (Y : Mat n) (solver : Solver n)
    (alphas : List ℚ) :
    ((∀ α ∈ alphas,
        (solver (buildProblem Y α)).status = SolverStatus.optimal ∧
        (solver (buildProblem Y α)).value.det ≠ 0) →
      runPipeline Y solver alphas
        = Except.ok (alphas.map fun α => threshold ((solver (buildProblem Y α)).value))) ∧
    (∀ res, runPipeline Y solver alphas = Except.ok res →
      res = (alphas.map fun α => threshold ((solver (buildProblem Y α)).value)) ∧
      ∀ α ∈ alphas,
        (solver (buildProblem Y α)).status = SolverStatus.optimal ∧
        (solver (buildProblem Y α)).value.det ≠ 0) :=
  ⟨runPipeline_all_ok Y solver alphas,
   fun _ h => ⟨runPipeline_ok_elim h, runPipeline_ok_forall h⟩⟩

/-- Witness for C8: a concrete two-budget sweep returns the two estimates in
budget order. -/
theorem pipeline_collects_in_order_witness :
    runPipeline (1 : Mat 1) solverOpt1 [10, 2]
      = Except.ok [threshold (1 : Mat 1), threshold (1 : Mat 1)] :=
  (pipeline_collects_in_order (1 : Mat 1) solverOpt1 [10, 2]).1
    fun _ _ => solverOpt1_succ _

/-- C10: after a successful solve the pipeline inverts the raw solution with
no guard: a singular raw solution aborts the whole run (so invertibility of
every raw solution is an undeclared precondition), while for an invertible
raw solution the computed inverse never appears in the output, which is just
the thresholded raw solution. -/
theorem unguarded_inversion {n : ℕ} (Y : Mat n) (solver : Solver n) (α β : ℚ)
    (hopt : (solver (buildProblem Y α)).status = SolverStatus.optimal)
    (hsing : (solver (buildProblem Y α)).value.det = 0)
    (hoptb : (solver (buildProblem Y β)).status = SolverStatus.optimal)
    (hinv : (solver (buildProblem Y β)).value.det ≠ 0) :
    runPipeline Y solver [α] = Except.error "LinAlgError: Singular matrix" ∧
    runPipeline Y solver [β]
      = Except.ok [threshold ((solver (buildProblem Y β)).value)] := by
  constructor
  · exact runPipeline_cons_err Y solver α []
      (runBody_of_singular Y solver α hopt hsing)
  · have h := runPipeline_all_ok Y solver [β] (by
      intro γ hγ
      rw [List.mem_singleton.mp hγ]
      exact ⟨hoptb, hinv⟩)
    simpa using h

/-- Witness for C10: a solver that reports optimality with a singular
solution at budget 10 aborts the run there, while its invertible solution at
budget 2 yields the thresholded estimate. -/
theorem unguarded_inversion_witness :
    runPipeline (1 : Mat 1) solverSing10 [10]
      = Except.error "LinAlgError: Singular matrix" ∧
    runPipeline (1 : Mat 1) solverSing10 [2]
      = Except.ok [threshold ((solverSing10 (buildProblem (1 : Mat 1) 2)).value)] :=
  unguarded_inversion (1 : Mat 1) solverSing10 10 2
    sing10_status_ten sing10_det_ten sing10_status_two sing10_det_two

end SparseCov
